import Mathlib

/-!
BTConnectionManager (CRUMPET): a shallow embedding.

The connection manager of `src/BTConnectionManager.cpp` is embedded as pure functions on a
record `Private` that mirrors `BTConnectionManager::Private`.

* A pointer is an `Option`: `none` is `nullptr`. The pointer `connecedDevice` is represented
  by the state of the `BTDevice` it points to.
* An operation that dereferences a pointer returns `Option`; `none` is the dereference of a
  null pointer (undefined behaviour in C++).
* Every operation returns, next to the new state, the list of `Effect`s it performed, in order:
  signals emitted (each with the state an observer sees at that very moment), calls on the
  discovery agent, timers armed, event-loop polls and characteristic writes.
-/

namespace BTConnectionManager

/-! ## Data model -/

/-- The two kinds of `QVariant` the manager stores in a command record. -/
inductive QVariant where
  | string (s : String)
  | int (i : Int)
  deriving DecidableEq, Repr

/-- A `QVariantMap`: the value stored under each key, `none` for a key that is absent. -/
abbrev QVariantMap := String → Option QVariant

/-- The default-constructed (empty) `QVariantMap`. -/
def QVariantMap.empty : QVariantMap := fun _ => none

/-- The assignment `map[key] = value`. -/
def QVariantMap.set (m : QVariantMap) (key : String) (value : QVariant) : QVariantMap :=
  fun k => if k = key then some value else m k

/-- The fields of `TailCommandModel::CommandInfo` the manager reads, and the running flag that
`setRunning` writes. -/
structure CommandInfo where
  name : String
  command : String
  category : String
  duration : Int
  minimumCooldown : Int
  isRunning : Bool
  deriving DecidableEq, Repr

/-- The command catalog of a device. -/
structure TailCommandModel where
  commands : List CommandInfo
  tailVersion : String
  deriving DecidableEq, Repr

/-- Modelled from the spec: `TailCommandModel::getCommand` is not part of the sources at hand;
the spec gives `lookup(name) -> CommandDefinition or NotFound`, a definition being identified
by its command name. -/
def TailCommandModel.getCommand (m : TailCommandModel) (command : String) : Option CommandInfo :=
  m.commands.find? (fun c => c.command == command)

/-- Modelled from the spec: `TailCommandModel::setRunning` is not part of the sources at hand;
the spec has the definition of that name marked running (or not running). -/
def TailCommandModel.setRunning (m : TailCommandModel) (command : String) (running : Bool) :
    TailCommandModel :=
  let mark : CommandInfo → CommandInfo :=
    fun c => if c.command = command then { c with isRunning := running } else c
  { m with commands := m.commands.map mark }

/-- Modelled from the spec: `TailCommandModel::autofill` is not part of the sources at hand; the
catalog contents per firmware version are external data, passed in as `catalog`. -/
def TailCommandModel.autofill (catalog : String → List CommandInfo) (_m : TailCommandModel)
    (version : String) : TailCommandModel :=
  { commands := catalog version, tailVersion := version }

/-- The members of `BTDevice` the manager touches. `connected` is what `BTDevice::isConnected()`
answers, `tailCharacteristicValid` is `tailCharacteristic.isValid()`, and the pointers
`btControl` and `tailService` are kept as null (`false`) or not null (`true`). -/
structure BTDevice where
  deviceID : String
  name : String
  connected : Bool
  btControl : Bool
  commandModel : Option TailCommandModel
  batteryLevel : Int
  currentCall : String
  tailCharacteristicValid : Bool
  tailService : Bool
  deriving DecidableEq, Repr

/-- The methods of `BTDevice` that the manager calls and whose bodies are not part of the sources
at hand: they are parameters of the embedding, arbitrary transformers of the device. -/
structure BTDeviceOps where
  connectDevice : BTDevice → BTDevice
  disconnectDevice : BTDevice → BTDevice
  sendMessage : BTDevice → String → BTDevice

/-- The entries of the `CommandQueue`, oldest first, each the name of a command. -/
abbrev CommandQueue := List String

/-- Modelled from the spec: `CommandQueue::count` is not part of the sources at hand; the spec
gives `count() -> integer`, the number of entries. -/
def CommandQueue.count (q : CommandQueue) : Nat := q.length

/-- Modelled from the spec: `CommandQueue::clear` is not part of the sources at hand; the spec
gives `clear()`, the explicit queue-clear that removes every entry. -/
def CommandQueue.clear (_q : CommandQueue) : CommandQueue := []

/-- The state of the manager, `BTConnectionManager::Private`. `commandModel` is the catalog the
manager itself owns, `batteryTimer` tells whether the battery timer is active. -/
structure Private where
  commandModel : TailCommandModel
  connecedDevice : Option BTDevice
  commandQueue : CommandQueue
  discoveryRunning : Bool
  fakeTailMode : Bool
  command : QVariantMap
  batteryTimer : Bool
  localBTDeviceState : Int

/-- The state the constructor leaves behind: no device, nothing queued, no scan, not fake. -/
def Private.initial : Private :=
  { commandModel := { commands := [], tailVersion := "" }
    connecedDevice := none
    commandQueue := []
    discoveryRunning := false
    fakeTailMode := false
    command := QVariantMap.empty
    batteryTimer := false
    localBTDeviceState := 0 }

/-- The signals of the manager that the modelled operations emit. -/
inductive Signal where
  | discoveryRunningChanged (running : Bool)
  | isConnectedChanged (connected : Bool)
  | commandModelChanged
  | commandQueueChanged
  | batteryLevelChanged (level : Int)
  | commandChanged (command : QVariantMap)

/-- The bodies of the lambdas handed to `QTimer::singleShot`. -/
inductive Deferred where
  /-- The lambda armed by `sendMessage`: `setRunning(message, false)` on the device catalog. -/
  | setRunning (message : String) (running : Bool)
  /-- The lambda armed by `setFakeTailMode`: `isConnectedChanged(true)`, then `autofill`. -/
  | fakeConnected
  deriving DecidableEq, Repr

/-- What an operation does besides changing `Private`. -/
inductive Effect where
  /-- The statement `emit signal`; `seen` is the state at that moment. -/
  | emit (signal : Signal) (seen : Private)
  /-- The call `deviceDiscoveryAgent->start(...)`. -/
  | agentStart
  /-- The call `deviceDiscoveryAgent->stop()`. -/
  | agentStop
  /-- The call `QTimer::singleShot(delay, this, action)`. -/
  | singleShot (delay : Int) (action : Deferred)
  /-- The call `qApp->processEvents()`. -/
  | processEvents
  /-- The call `tailService->writeCharacteristic(tailCharacteristic, message.toUtf8())`. -/
  | writeCharacteristic (message : String)

/-- Whether an effect is the emission of `discoveryRunningChanged`. -/
def Effect.isDiscoveryRunningChanged : Effect → Bool
  | .emit (.discoveryRunningChanged _) _ => true
  | _ => false

/-- Whether an effect arms a timer. -/
def Effect.isSingleShot : Effect → Bool
  | .singleShot _ _ => true
  | _ => false

/-- Whether an effect is a characteristic write. -/
def Effect.isWrite : Effect → Bool
  | .writeCharacteristic _ => true
  | _ => false

/-! ## Accessors -/

/-- The accessor `BTConnectionManager::discoveryRunning`. -/
def discoveryRunning (s : Private) : Bool := s.discoveryRunning

/-- The accessor `BTConnectionManager::isConnected`:
`fakeTailMode || (connecedDevice && connecedDevice->isConnected())`. -/
def isConnected (s : Private) : Bool :=
  s.fakeTailMode || (match s.connecedDevice with
    | none => false
    | some dev => dev.connected)

/-- The accessor `BTConnectionManager::batteryLevel`. -/
def batteryLevel (s : Private) : Int :=
  match s.connecedDevice with
  | some dev => dev.batteryLevel
  | none => 0

/-- The accessor `BTConnectionManager::commandQueueCount`. -/
def commandQueueCount (s : Private) : Nat := s.commandQueue.count

/-! ## Discovery -/

/-- The slot `BTConnectionManager::startDiscovery`. -/
def startDiscovery (s : Private) : Private × List Effect :=
  if !s.discoveryRunning then
    let s1 := { s with discoveryRunning := true }
    (s1, [.emit (.discoveryRunningChanged s1.discoveryRunning) s1, .agentStart])
  else
    (s, [])

/-- The slot `BTConnectionManager::stopDiscovery`. -/
def stopDiscovery (s : Private) : Private × List Effect :=
  let s1 := { s with discoveryRunning := false }
  (s1, [.emit (.discoveryRunningChanged s1.discoveryRunning) s1, .agentStop])

/-- The handler the constructor connects to the `finished` signal of the discovery agent. -/
def discoveryFinished (s : Private) : Private × List Effect :=
  let s1 := { s with discoveryRunning := false }
  (s1, [.emit (.discoveryRunningChanged s1.discoveryRunning) s1])

/-! ## Connection -/

/-- The slot `BTConnectionManager::disconnectDevice`. In the second branch the test
`connecedDevice->isConnected()` dereferences the pointer without a null check. -/
def disconnectDevice (ops : BTDeviceOps) (s : Private) : Option (Private × List Effect) :=
  if s.fakeTailMode then
    let s1 := { s with fakeTailMode := false }
    some (s1, [.emit (.isConnectedChanged (isConnected s1)) s1])
  else
    match s.connecedDevice with
    | none => none
    | some dev =>
      if dev.connected then
        let s1 := { s with connecedDevice := some (ops.disconnectDevice dev) }
        let s2 := { s1 with batteryTimer := false }
        let s3 := { s2 with connecedDevice := none }
        let s4 := { s3 with commandQueue := s3.commandQueue.clear }
        some (s4, [.emit .commandModelChanged s2,
                   .emit .commandQueueChanged s4,
                   .emit (.batteryLevelChanged 0) s4,
                   .emit (.isConnectedChanged (isConnected s4)) s4])
      else
        some (s, [])

/-! ## Sending -/

/-- The wait loop of `sendMessage`,
`while(!currentCall.isEmpty()) { if(++i == 100) break; qApp->processEvents(); }`.
The argument `left` is `100 - i`, so the loop is entered with `left = 100`, and `++i == 100`
reads `left = 1` before the increment. The event loop is the parameter `processEvents`: its
argument is the number of the poll, its result the state once the pending events have been
handled. The loop condition dereferences `connecedDevice` without a null check. -/
def waitLoop (processEvents : Nat → Private → Private) :
    Nat → Private → List Effect → Option (Private × List Effect)
  | 0, s, log => some (s, log)
  | left + 1, s, log =>
    match s.connecedDevice with
    | none => none
    | some dev =>
      if dev.currentCall.isEmpty then some (s, log)
      else if left = 0 then some (s, log)
      else waitLoop processEvents left (processEvents (100 - (left + 1)) s)
        (log ++ [Effect.processEvents])

/-- The fake-mode block that opens `sendMessage`. Both `connecedDevice` and its `commandModel`
are dereferenced without a null check. -/
def sendMessageFake (s : Private) (message : String) : Option (Private × List Effect) :=
  if s.fakeTailMode then
    match s.connecedDevice with
    | none => none
    | some dev =>
      match dev.commandModel with
      | none => none
      | some model =>
        match model.getCommand message with
        | some commandInfo =>
          let dev1 := { dev with commandModel := some (model.setRunning message true) }
          some ({ s with connecedDevice := some dev1 },
                [.singleShot commandInfo.duration (.setRunning message false)])
        | none => some (s, [])
  else
    some (s, [])

/-- The final statement of `sendMessage`: the write, guarded by the validity of the
characteristic and the presence of the service. -/
def sendMessageWrite (s : Private) (log : List Effect) (message : String) :
    Option (Private × List Effect) :=
  match s.connecedDevice with
  | none => none
  | some dev =>
    if dev.tailCharacteristicValid && dev.tailService then
      some (s, log ++ [.writeCharacteristic message])
    else
      some (s, log)

/-- The slot `BTConnectionManager::sendMessage`: the fake-mode block, the wait loop, the
write. -/
def sendMessage (processEvents : Nat → Private → Private) (s : Private) (message : String) :
    Option (Private × List Effect) :=
  match sendMessageFake s message with
  | none => none
  | some (s1, log1) =>
    match waitLoop processEvents 100 s1 log1 with
    | none => none
    | some (s2, log2) => sendMessageWrite s2 log2 message

/-- The slot `BTConnectionManager::runCommand`:
`if (connecedDevice) connecedDevice->sendMessage(command);`. -/
def runCommand (ops : BTDeviceOps) (s : Private) (command : String) : Private × List Effect :=
  match s.connecedDevice with
  | some dev => ({ s with connecedDevice := some (ops.sendMessage dev command) }, [])
  | none => (s, [])

/-- The body of a lambda handed to `QTimer::singleShot`, run when its timer fires. `catalog`
holds the definitions `autofill` loads for a version. -/
def runDeferred (catalog : String → List CommandInfo) (s : Private) :
    Deferred → Option (Private × List Effect)
  | .setRunning message running =>
    match s.connecedDevice with
    | none => none
    | some dev =>
      match dev.commandModel with
      | none => none
      | some model =>
        let dev1 := { dev with commandModel := some (model.setRunning message running) }
        some ({ s with connecedDevice := some dev1 }, [])
  | .fakeConnected =>
    match s.connecedDevice with
    | none => none
    | some dev =>
      match dev.commandModel with
      | none => none
      | some model =>
        let dev1 := { dev with commandModel := some (model.autofill catalog "v1.0") }
        some ({ s with connecedDevice := some dev1 }, [.emit (.isConnectedChanged true) s])

/-! ## Fake mode -/

/-- The slot `BTConnectionManager::setFakeTailMode`. -/
def setFakeTailMode (s : Private) (enableFakery : Bool) : Private × List Effect :=
  if s.fakeTailMode == false && enableFakery == true then
    let s1 := { s with fakeTailMode := true }
    let r := stopDiscovery s1
    (r.1, r.2 ++ [.singleShot 1000 .fakeConnected])
  else
    ({ s with fakeTailMode := enableFakery }, [])

/-! ## The current command

The Qt text functions used by `setCommand` (`QString::startsWith`, `split`, `QList::last`,
`QString::toInt`, `QVariant::toString`) and the arithmetic of `int` are library behaviour,
written here after the Qt documentation. -/

/-- The call `text.startsWith(start)` of `QString`. -/
def startsWith (text start : String) : Bool := start.data.isPrefixOf text.data

/-- The call `text.split(sep)` of `QString`, empty parts kept, on the characters of the text. -/
def split (sep : Char) : List Char → List (List Char)
  | [] => [[]]
  | c :: cs =>
    if c = sep then [] :: split sep cs
    else
      match split sep cs with
      | [] => [[c]]
      | part :: parts => (c :: part) :: parts

/-- The call `parts.last()` of `QList`, on the parts `split` returns (never an empty list). -/
def last (parts : List (List Char)) : List Char := parts.getLast?.getD []

/-- The value of a decimal digit, `none` for any other character. -/
def digitValue (c : Char) : Option Nat :=
  if 48 ≤ c.toNat ∧ c.toNat ≤ 57 then some (c.toNat - 48) else none

/-- The number a run of decimal digits denotes, read left to right from `acc`; `none` when a
character is not a digit. -/
def parseDigits : List Char → Nat → Option Nat
  | [], acc => some acc
  | c :: cs, acc =>
    match digitValue c with
    | some d => parseDigits cs (acc * 10 + d)
    | none => none

/-- White space as `QString::toInt` skips it: the space and the controls tab to carriage
return. -/
def isSpace (c : Char) : Bool := c.toNat = 32 || (9 ≤ c.toNat && c.toNat ≤ 13)

/-- The text without leading and trailing white space. -/
def trimmed (text : List Char) : List Char :=
  ((text.dropWhile isSpace).reverse.dropWhile isSpace).reverse

/-- The call `text.toInt()` of `QString`: base ten, white space around the number skipped, an
optional sign, and `0` when the conversion fails, which includes a value outside the range of
a 32-bit `int`. -/
def toInt (text : List Char) : Int :=
  let body := trimmed text
  let negative : Bool := body.head? = some '-'
  let digits : List Char :=
    if body.head? = some '-' ∨ body.head? = some '+' then body.tail else body
  if digits.isEmpty then 0
  else
    match parseDigits digits 0 with
    | none => 0
    | some v =>
      let value : Int := if negative then -(v : Int) else (v : Int)
      if -2147483648 ≤ value ∧ value ≤ 2147483647 then value else 0

/-- The result of 32-bit `int` arithmetic: the value reduced to the two's complement range. -/
def wrapInt (z : Int) : Int := (z + 2147483648) % 4294967296 - 2147483648

/-- The call `value.toString()` of `QVariant`; a key that is absent reads as an invalid
variant, whose text is empty. -/
def QVariant.toString : Option QVariant → String
  | some (.string s) => s
  | some (.int i) => ToString.toString i
  | none => ""

/-- The slot `BTConnectionManager::getCommand`. -/
def getCommand (s : Private) (command : String) : QVariantMap :=
  match s.connecedDevice with
  | none => QVariantMap.empty
  | some dev =>
    match dev.commandModel with
    | none => QVariantMap.empty
    | some model =>
      match model.getCommand command with
      | none => QVariantMap.empty
      | some actualCommand =>
        let info0 := QVariantMap.empty
        let info1 := info0.set "category" (.string actualCommand.category)
        let info2 := info1.set "command" (.string actualCommand.command)
        let info3 := info2.set "duration" (.int actualCommand.duration)
        let info4 := info3.set "minimumCooldown" (.int actualCommand.minimumCooldown)
        info4.set "name" (.string actualCommand.name)

/-- The slot `BTConnectionManager::setCommand`. -/
def setCommand (s : Private) (command : QVariantMap) : Private × List Effect :=
  let actualCommand := QVariant.toString (command "command")
  let s1 : Private :=
    if startsWith actualCommand "pause" then
      let c1 := s.command.set "category" (.string "")
      let c2 := c1.set "command" (.string actualCommand)
      let c3 := c2.set "duration" (.int (wrapInt (toInt (last (split ':' actualCommand.data)) * 1000)))
      let c4 := c3.set "minimumCooldown" (.int 0)
      { s with command := c4.set "name" (.string "Pause") }
    else
      { s with command := getCommand s (QVariant.toString (command "command")) }
  (s1, [.emit (.commandChanged s1.command) s1])

/-- The accessor `BTConnectionManager::command`. -/
def command (s : Private) : QVariantMap := s.command

/-! ## Records and sample states used in the statements -/

/-- The five keys of a command record. -/
def recordKeys : List String := ["category", "command", "duration", "minimumCooldown", "name"]

/-- A map that holds no key besides the five of a command record. -/
def recordKeysOnly (m : QVariantMap) : Prop := ∀ k, k ∉ recordKeys → m k = none

/-- The argument of `setCommand` that names a command: a map with the key `command` alone. -/
def commandNamed (name : String) : QVariantMap :=
  QVariantMap.empty.set "command" (.string name)

/-- The command record with the given five fields and no other key. -/
def commandRecord (category command : String) (duration minimumCooldown : Int) (name : String) :
    QVariantMap :=
  fun k =>
    if k = "name" then some (.string name)
    else if k = "minimumCooldown" then some (.int minimumCooldown)
    else if k = "duration" then some (.int duration)
    else if k = "command" then some (.string command)
    else if k = "category" then some (.string category)
    else none

/-- A device with a catalog of one command, connected or not as asked. -/
def sampleDevice (connected : Bool) : BTDevice :=
  { deviceID := "C0:FF:EE:00:00:01"
    name := "(!)Tail1"
    connected := connected
    btControl := connected
    commandModel := some
      { commands := [{ name := "Slow Wag 1", command := "TAILS1", category := "relaxed",
                       duration := 11000, minimumCooldown := 5000, isRunning := false }]
        tailVersion := "v1.0" }
    batteryLevel := 3
    currentCall := ""
    tailCharacteristicValid := connected
    tailService := connected }

/-- Device methods that leave the device as it is. -/
def sampleOps : BTDeviceOps :=
  { connectDevice := fun dev => dev
    disconnectDevice := fun dev => dev
    sendMessage := fun dev _ => dev }

/-- A catalog holding the one command `TAILS1`. -/
def sampleCatalog : TailCommandModel :=
  { commands := [{ name := "Slow Wag 1", command := "TAILS1", category := "relaxed",
                   duration := 11000, minimumCooldown := 5000, isRunning := false }]
    tailVersion := "v1.0" }

/-- Fake mode off, a device selected and connected, one command queued, a scan running. -/
def connectedState : Private :=
  { Private.initial with
    connecedDevice := some (sampleDevice true)
    commandQueue := ["TAILS1"]
    discoveryRunning := true
    batteryTimer := true }

/-- Fake mode off, a device selected but not connected, one command queued. -/
def selectedState : Private :=
  { Private.initial with
    connecedDevice := some (sampleDevice false)
    commandQueue := ["TAILS1"] }

/-- Fake mode on, no device selected, one command queued. -/
def fakeQueuedState : Private :=
  { Private.initial with
    fakeTailMode := true
    commandQueue := ["TAILS1"] }

/-- No device selected, fake mode off, the catalog of the manager holding `TAILS1`. -/
def idleCatalogState : Private :=
  { Private.initial with commandModel := sampleCatalog }

/-- The fake state reached from the idle state with no device selected: `setFakeTailMode(true)`
on `idleCatalogState`. -/
def fakeIdleState : Private :=
  { idleCatalogState with fakeTailMode := true }

/-- An event loop whose handlers change nothing: a pending call never clears. -/
def idleEvents : Nat → Private → Private := fun _ s => s

/-! ## Device registry and aliases

`setDeviceName` works on the two objects behind the pointers `deviceModel` and `appSettings`
of `Private`; they are kept in a record of their own, `Registry`. -/

/-- The alias store of `AppSettings`: the alias kept for an address, `none` when there is
none. -/
structure AppSettings where
  deviceNames : String → Option String

/-- Modelled from the spec: `AppSettings::setDeviceName` is not part of the sources at hand; the
spec has the settings store receive `(address) -> alias` mappings. -/
def AppSettings.setDeviceName (settings : AppSettings) (address deviceName : String) :
    AppSettings :=
  { deviceNames := fun a => if a = address then some deviceName else settings.deviceNames a }

/-- The device registry `BTDeviceModel`: the discovered devices, in the order of discovery. -/
structure BTDeviceModel where
  devices : List BTDevice

/-- Modelled from the spec: `BTDeviceModel::getDevice` is not part of the sources at hand; the
spec gives `get(address) -> Device or NotFound` on a registry deduplicated by address. -/
def BTDeviceModel.getDevice (model : BTDeviceModel) (deviceID : String) : Option BTDevice :=
  model.devices.find? (fun dev => dev.deviceID == deviceID)

/-- Modelled from the spec: `BTDeviceModel::count` is not part of the sources at hand; the spec
gives `count() -> integer`, the number of registered devices. -/
def BTDeviceModel.count (model : BTDeviceModel) : Nat := model.devices.length

/-- What `setDeviceName` uses of a registered device and of the registry without its body being
part of the sources at hand: `address` is `device->deviceInfo.address().toString()`, and
`updateItem` is `BTDeviceModel::updateItem`, an arbitrary transformer of the registry. -/
structure BTDeviceModelOps where
  address : BTDevice → String
  updateItem : BTDeviceModel → String → BTDeviceModel

/-- The objects `setDeviceName` works on. The pointer `appSettings` is handed to the manager
from outside and may be null; `deviceModel` is created by the constructor. -/
structure Registry where
  appSettings : Option AppSettings
  deviceModel : BTDeviceModel

/-- The calls `setDeviceName` makes on the alias store and on the registry. -/
inductive RegistryCall where
  /-- The call `appSettings->setDeviceName(address, deviceName)`. -/
  | setDeviceName (address deviceName : String)
  /-- The call `deviceModel->updateItem(deviceID)`. -/
  | updateItem (deviceID : String)
  deriving DecidableEq, Repr

/-- The accessor `BTConnectionManager::deviceCount`. -/
def deviceCount (r : Registry) : Nat := r.deviceModel.count

/-- The slot `BTConnectionManager::setDeviceName`. -/
def setDeviceName (ops : BTDeviceModelOps) (r : Registry) (deviceID deviceName : String) :
    Option (Registry × List RegistryCall) :=
  match r.deviceModel.getDevice deviceID with
  | some device =>
    match r.appSettings with
    | none => none
    | some settings =>
      let settings1 := settings.setDeviceName (ops.address device) deviceName
      let model1 := ops.updateItem r.deviceModel deviceID
      some ({ appSettings := some settings1, deviceModel := model1 },
            [.setDeviceName (ops.address device) deviceName, .updateItem deviceID])
  | none => some (r, [])

/-- Whether an effect is a poll of the event loop. -/
def Effect.isProcessEvents : Effect → Bool
  | .processEvents => true
  | _ => false

/-- The number of times the wait loop of `sendMessage` evaluates its condition, the check of
the pending call, with the conventions of `waitLoop` (`left` is `100 - i`). A check that
dereferences a null `connecedDevice` is counted, and is the last one. -/
def waitLoopChecks (processEvents : Nat → Private → Private) : Nat → Private → Nat
  | 0, _ => 0
  | left + 1, s =>
    match s.connecedDevice with
    | none => 1
    | some dev =>
      if dev.currentCall.isEmpty then 1
      else if left = 0 then 1
      else 1 + waitLoopChecks processEvents left (processEvents (100 - (left + 1)) s)

/-- An event loop that delivers a pending `disconnectDevice()` of a connected device: its
handler resets `connecedDevice` and clears the queue. -/
def disconnectEvents : Nat → Private → Private :=
  fun _ s => { s with connecedDevice := none, commandQueue := [] }

/-- A registry holding the sample device, with an empty alias store. -/
def sampleRegistry : Registry :=
  { appSettings := some { deviceNames := fun _ => none }
    deviceModel := { devices := [sampleDevice false] } }

/-- The device address is the device ID, and `updateItem` leaves the registry as it is. -/
def sampleModelOps : BTDeviceModelOps :=
  { address := fun dev => dev.deviceID
    updateItem := fun model _ => model }

/-- Fake mode off, the sample device connected, and a call still pending on it. -/
def busyState : Private :=
  { Private.initial with
    connecedDevice := some { sampleDevice true with currentCall := "TAILS1" } }

/-! ## Theorems: disconnectDevice -/

/-- C1, as stated, fails: with fake mode off and the selected device not connected,
`disconnectDevice()` changes nothing, so the queue still counts one entry and the battery level
still reads 3 when it returns. -/
theorem disconnectDevice_selected_keeps_queue_and_battery :
    ∃ r, disconnectDevice sampleOps selectedState = some r ∧
      commandQueueCount r.1 = 1 ∧ batteryLevel r.1 = 3 :=
  ⟨(selectedState, []), rfl, rfl, rfl⟩

/-- C1, amended: with fake mode off and the selected device connected, `disconnectDevice()`
returns with `commandQueueCount() == 0`, `batteryLevel() == 0` and `isConnected() == false`;
with fake mode on it only switches the fake flag off; with fake mode off and the selected
device not connected it changes nothing. -/
theorem disconnectDevice_outcome (ops : BTDeviceOps) (s : Private) :
    (∀ dev, s.fakeTailMode = false → s.connecedDevice = some dev → dev.connected = true →
      ∃ r, disconnectDevice ops s = some r ∧
        commandQueueCount r.1 = 0 ∧ batteryLevel r.1 = 0 ∧ isConnected r.1 = false) ∧
    (s.fakeTailMode = true →
      ∃ log, disconnectDevice ops s = some ({ s with fakeTailMode := false }, log)) ∧
    (∀ dev, s.fakeTailMode = false → s.connecedDevice = some dev → dev.connected = false →
      disconnectDevice ops s = some (s, [])) := by
  refine ⟨?_, ?_, ?_⟩
  · intro dev hfake hdev hconn
    simp [disconnectDevice, hfake, hdev, hconn, commandQueueCount, batteryLevel, isConnected,
      CommandQueue.clear, CommandQueue.count]
  · intro hfake
    simp [disconnectDevice, hfake]
  · intro dev hfake hdev hconn
    simp [disconnectDevice, hfake, hdev, hconn]

/-- The amended C1 at sample states: a connected device, fake mode, a device not connected. -/
theorem disconnectDevice_outcome_witness :
    (∃ r, disconnectDevice sampleOps connectedState = some r ∧
      commandQueueCount r.1 = 0 ∧ batteryLevel r.1 = 0 ∧ isConnected r.1 = false) ∧
    (∃ log, disconnectDevice sampleOps fakeQueuedState
      = some ({ fakeQueuedState with fakeTailMode := false }, log)) ∧
    disconnectDevice sampleOps selectedState = some (selectedState, []) :=
  ⟨(disconnectDevice_outcome sampleOps connectedState).1 (sampleDevice true) rfl rfl rfl,
   (disconnectDevice_outcome sampleOps fakeQueuedState).2.1 rfl,
   (disconnectDevice_outcome sampleOps selectedState).2.2 (sampleDevice false) rfl rfl rfl⟩

/-- C2, as stated, fails: leaving fake mode with a command queued, `disconnectDevice()` emits
`isConnectedChanged(false)` while the queue still counts one entry, so the observer sees
`commandQueueCount() > 0` together with `isConnected() == false`. -/
theorem disconnectDevice_fake_notifies_with_queue :
    ∃ r seen, disconnectDevice sampleOps fakeQueuedState = some r ∧
      r.2 = [Effect.emit (Signal.isConnectedChanged false) seen] ∧
      commandQueueCount seen = 1 ∧ isConnected seen = false :=
  ⟨_, _, rfl, rfl, rfl, rfl⟩

/-- C2, amended: with fake mode off and the selected device connected, `disconnectDevice()`
emits `commandModelChanged` while the queue is still as it was, and then
`commandQueueChanged`, `batteryLevelChanged(0)` and `isConnectedChanged(false)`, each at a
moment where the queue counts 0, the battery level reads 0 and `isConnected()` is false; with
fake mode on it emits `isConnectedChanged` alone, the queue untouched. -/
theorem disconnectDevice_notifications (ops : BTDeviceOps) (s : Private) :
    (∀ dev, s.fakeTailMode = false → s.connecedDevice = some dev → dev.connected = true →
      ∃ r before after, disconnectDevice ops s = some r ∧
        r.2 = [Effect.emit Signal.commandModelChanged before,
               Effect.emit Signal.commandQueueChanged after,
               Effect.emit (Signal.batteryLevelChanged 0) after,
               Effect.emit (Signal.isConnectedChanged false) after] ∧
        commandQueueCount before = commandQueueCount s ∧
        commandQueueCount after = 0 ∧ batteryLevel after = 0 ∧ isConnected after = false) ∧
    (s.fakeTailMode = true →
      ∃ r seen, disconnectDevice ops s = some r ∧
        r.2 = [Effect.emit (Signal.isConnectedChanged (isConnected seen)) seen] ∧
        seen.fakeTailMode = false ∧ seen.commandQueue = s.commandQueue ∧
        seen.connecedDevice = s.connecedDevice) := by
  refine ⟨?_, ?_⟩
  · intro dev hfake hdev hconn
    simp only [disconnectDevice, hfake, hdev, hconn, Bool.false_eq_true, if_false, if_true]
    exact ⟨_, _, _, rfl, rfl, rfl, rfl, rfl, rfl⟩
  · intro hfake
    simp only [disconnectDevice, hfake, if_true]
    exact ⟨_, _, rfl, rfl, rfl, rfl, rfl⟩

/-- The amended C2 at a connected device and in fake mode. -/
theorem disconnectDevice_notifications_witness :
    (∃ r before after, disconnectDevice sampleOps connectedState = some r ∧
        r.2 = [Effect.emit Signal.commandModelChanged before,
               Effect.emit Signal.commandQueueChanged after,
               Effect.emit (Signal.batteryLevelChanged 0) after,
               Effect.emit (Signal.isConnectedChanged false) after] ∧
        commandQueueCount before = commandQueueCount connectedState ∧
        commandQueueCount after = 0 ∧ batteryLevel after = 0 ∧ isConnected after = false) ∧
    (∃ r seen, disconnectDevice sampleOps fakeQueuedState = some r ∧
        r.2 = [Effect.emit (Signal.isConnectedChanged (isConnected seen)) seen] ∧
        seen.fakeTailMode = false ∧ seen.commandQueue = fakeQueuedState.commandQueue ∧
        seen.connecedDevice = fakeQueuedState.connecedDevice) :=
  ⟨(disconnectDevice_notifications sampleOps connectedState).1 (sampleDevice true) rfl rfl rfl,
   (disconnectDevice_notifications sampleOps fakeQueuedState).2 rfl⟩

/-! ## Theorems: runCommand and sendMessage -/

/-- C5, as stated, fails: in fake mode with no device selected the session is active
(`isConnected()` is true), yet `runCommand` leaves the queue empty. -/
theorem runCommand_fake_does_not_enqueue :
    isConnected fakeIdleState = true ∧
      runCommand sampleOps fakeIdleState "TAILS1" = (fakeIdleState, []) ∧
      (runCommand sampleOps fakeIdleState "TAILS1").1.commandQueue = [] :=
  ⟨rfl, rfl, rfl⟩

/-- C5, amended: `runCommand(name)` never touches the command queue and performs no effect of
its own; with a device selected it hands the name to `sendMessage` of that device, with no
device selected it does nothing. -/
theorem runCommand_hands_to_device (ops : BTDeviceOps) (s : Private) (name : String) :
    (runCommand ops s name).1.commandQueue = s.commandQueue ∧
    (runCommand ops s name).2 = [] ∧
    (s.connecedDevice = none → runCommand ops s name = (s, [])) ∧
    (∀ dev, s.connecedDevice = some dev →
      runCommand ops s name = ({ s with connecedDevice := some (ops.sendMessage dev name) }, [])) := by
  refine ⟨?_, ?_, ?_, ?_⟩
  · cases h : s.connecedDevice <;> simp [runCommand, h]
  · cases h : s.connecedDevice <;> simp [runCommand, h]
  · intro h
    simp [runCommand, h]
  · intro dev h
    simp [runCommand, h]

/-- The amended C5 at a state with a device and at a state without. -/
theorem runCommand_hands_to_device_witness :
    runCommand sampleOps Private.initial "TAILS1" = (Private.initial, []) ∧
    runCommand sampleOps connectedState "TAILS1"
      = ({ connectedState with
           connecedDevice := some (sampleOps.sendMessage (sampleDevice true) "TAILS1") }, []) :=
  ⟨(runCommand_hands_to_device sampleOps Private.initial "TAILS1").2.2.1 rfl,
   (runCommand_hands_to_device sampleOps connectedState "TAILS1").2.2.2 (sampleDevice true) rfl⟩

/-- C6: in the state the constructor leaves (no device selected, fake mode off) `sendMessage`
dereferences the null `connecedDevice` in the condition of its wait loop, for every message and
every behaviour of the event loop, whereas `runCommand` guards the pointer and returns with the
state unchanged. -/
theorem sendMessage_idle_dereferences_null (processEvents : Nat → Private → Private)
    (ops : BTDeviceOps) (message : String) :
    isConnected Private.initial = false ∧
      sendMessage processEvents Private.initial message = none ∧
      runCommand ops Private.initial message = (Private.initial, []) :=
  ⟨rfl, rfl, rfl⟩

/-- C7: in the fake state reached from the idle state with no device selected, `sendMessage`
dereferences the null `connecedDevice` to reach the catalog, for a message that names a command
of the catalog the manager owns and for every behaviour of the event loop: no running flag is
set and no timer is armed. -/
theorem sendMessage_fake_dereferences_null (processEvents : Nat → Private → Private) :
    fakeIdleState = (setFakeTailMode idleCatalogState true).1 ∧
      fakeIdleState.fakeTailMode = true ∧
      (fakeIdleState.commandModel.getCommand "TAILS1").isSome = true ∧
      sendMessage processEvents fakeIdleState "TAILS1" = none :=
  ⟨rfl, rfl, by decide, rfl⟩

/-- The catalog after `setRunning(message, true)` holds the definition of `message` with its
running flag set. -/
theorem getCommand_setRunning (model : TailCommandModel) (message : String)
    (info : CommandInfo) (running : Bool) (h : model.getCommand message = some info) :
    (model.setRunning message running).getCommand message
      = some { info with isRunning := running } := by
  obtain ⟨commands, version⟩ := model
  simp only [TailCommandModel.getCommand, TailCommandModel.setRunning] at h ⊢
  induction commands with
  | nil => simp at h
  | cons c cs ih =>
    by_cases hc : c.command = message
    · simp only [List.find?, hc, beq_self_eq_true] at h
      simp only [Option.some.injEq] at h
      subst h
      simp [List.find?, hc]
    · have hb : (c.command == message) = false := by simpa using hc
      simp only [List.find?, hb] at h
      simp only [List.map_cons, hc, if_false, List.find?, hb]
      exact ih h

/-- The wait loop returns at once, without a poll, when no call is pending on the device. -/
theorem waitLoop_no_call (processEvents : Nat → Private → Private) (left : Nat) (s : Private)
    (log : List Effect) (dev : BTDevice) (hdev : s.connecedDevice = some dev)
    (hcall : dev.currentCall = "") :
    waitLoop processEvents (left + 1) s log = some (s, log) := by
  have hempty : dev.currentCall.isEmpty = true := by rw [hcall]; rfl
  simp only [waitLoop, hdev, hempty, if_true]

/-- With fake mode on, a device selected that has a catalog holding `message`, and no call
pending on the device, `sendMessage` returns, the definition of `message` is marked running,
and the only timer armed is the one that clears the flag after the declared duration. -/
theorem sendMessage_fake_with_device (processEvents : Nat → Private → Private) (s : Private)
    (dev : BTDevice) (model : TailCommandModel) (info : CommandInfo) (message : String)
    (hfake : s.fakeTailMode = true) (hdev : s.connecedDevice = some dev)
    (hmodel : dev.commandModel = some model) (hinfo : model.getCommand message = some info)
    (hcall : dev.currentCall = "") :
    ∃ r dev1 model1, sendMessage processEvents s message = some r ∧
      r.1.connecedDevice = some dev1 ∧ dev1.commandModel = some model1 ∧
      model1.getCommand message = some { info with isRunning := true } ∧
      r.2.filter Effect.isSingleShot
        = [Effect.singleShot info.duration (Deferred.setRunning message false)] := by
  have hrun := getCommand_setRunning model message info true hinfo
  let dev1 : BTDevice := { dev with commandModel := some (model.setRunning message true) }
  let s1 : Private := { s with connecedDevice := some dev1 }
  let timer : Effect := Effect.singleShot info.duration (Deferred.setRunning message false)
  have hfakeStep : sendMessageFake s message = some (s1, [timer]) := by
    rw [sendMessageFake, if_pos hfake]
    simp only [hdev, hmodel, hinfo]
  have hwait : waitLoop processEvents 100 s1 [timer] = some (s1, [timer]) :=
    waitLoop_no_call processEvents 99 s1 [timer] dev1 rfl hcall
  by_cases hw : (dev.tailCharacteristicValid && dev.tailService) = true
  · refine ⟨(s1, [timer, Effect.writeCharacteristic message]), dev1, _, ?_, rfl, rfl, hrun, ?_⟩
    · have hw1 : (dev1.tailCharacteristicValid && dev1.tailService) = true := hw
      simp only [sendMessage, hfakeStep, hwait, sendMessageWrite, s1, hw1, if_true]
      rfl
    · simp [Effect.isSingleShot, timer]
  · refine ⟨(s1, [timer]), dev1, _, ?_, rfl, rfl, hrun, ?_⟩
    · have hw1 : ¬ (dev1.tailCharacteristicValid && dev1.tailService) = true := hw
      simp only [sendMessage, hfakeStep, hwait, sendMessageWrite, s1, hw1, if_false,
        Bool.false_eq_true]
    · simp [Effect.isSingleShot, timer]

/-- The fake send at a sample state: fake mode on, the sample device selected. -/
theorem sendMessage_fake_with_device_witness :
    ∃ r dev1 model1,
      sendMessage idleEvents { connectedState with fakeTailMode := true } "TAILS1" = some r ∧
      r.1.connecedDevice = some dev1 ∧ dev1.commandModel = some model1 ∧
      model1.getCommand "TAILS1" = some
        { name := "Slow Wag 1", command := "TAILS1", category := "relaxed",
          duration := 11000, minimumCooldown := 5000, isRunning := true } ∧
      r.2.filter Effect.isSingleShot
        = [Effect.singleShot 11000 (Deferred.setRunning "TAILS1" false)] :=
  sendMessage_fake_with_device idleEvents { connectedState with fakeTailMode := true }
    (sampleDevice true) sampleCatalog
    { name := "Slow Wag 1", command := "TAILS1", category := "relaxed",
      duration := 11000, minimumCooldown := 5000, isRunning := false }
    "TAILS1" rfl rfl rfl (by decide) rfl

/-! ## Theorems: fake mode -/

/-- C8, as stated, fails: with fake mode off and a device connected, `setFakeTailMode(true)`
does enter fake mode: it sets the flag, stops the scan and arms the deferred step. -/
theorem setFakeTailMode_enters_while_connected :
    isConnected connectedState = true ∧ connectedState.fakeTailMode = false ∧
      (setFakeTailMode connectedState true).1.fakeTailMode = true ∧
      (setFakeTailMode connectedState true).1.discoveryRunning = false ∧
      (setFakeTailMode connectedState true).2.filter Effect.isSingleShot
        = [Effect.singleShot 1000 Deferred.fakeConnected] :=
  ⟨rfl, rfl, rfl, rfl, rfl⟩

/-- C8, amended: `setFakeTailMode(true)` enters fake mode whenever the manager is not already
in fake mode, a device being connected or not: it sets the fake flag, stops discovery
(clearing the scanning flag, emitting `discoveryRunningChanged(false)`, stopping the agent) and
arms the deferred step with a delay of 1000 ms; called while already in fake mode it changes no
state and performs no effect. -/
theorem setFakeTailMode_enable (s : Private) :
    (s.fakeTailMode = false →
      setFakeTailMode s true
        = ({ s with fakeTailMode := true, discoveryRunning := false },
           [Effect.emit (Signal.discoveryRunningChanged false)
              { s with fakeTailMode := true, discoveryRunning := false },
            Effect.agentStop,
            Effect.singleShot 1000 Deferred.fakeConnected])) ∧
    (s.fakeTailMode = true → setFakeTailMode s true = (s, [])) := by
  refine ⟨?_, ?_⟩
  · intro h
    simp [setFakeTailMode, stopDiscovery, h]
  · intro h
    obtain ⟨a, b, c, d, e, f, g, i⟩ := s
    simp only at h
    simp [setFakeTailMode, h]

/-- The amended C8 with a device connected and in fake mode. -/
theorem setFakeTailMode_enable_witness :
    setFakeTailMode connectedState true
        = ({ connectedState with fakeTailMode := true, discoveryRunning := false },
           [Effect.emit (Signal.discoveryRunningChanged false)
              { connectedState with fakeTailMode := true, discoveryRunning := false },
            Effect.agentStop,
            Effect.singleShot 1000 Deferred.fakeConnected]) ∧
    setFakeTailMode fakeQueuedState true = (fakeQueuedState, []) :=
  ⟨(setFakeTailMode_enable connectedState).1 rfl, (setFakeTailMode_enable fakeQueuedState).2 rfl⟩

/-! ## Theorems: discovery -/

/-- C9: `startDiscovery()` called while `discoveryRunning()` is true changes no state and
performs no effect (no notification, no start of the scan); hence a second `startDiscovery()`
in a row is such a call and leaves the state of the first. -/
theorem startDiscovery_idempotent (s : Private) :
    (discoveryRunning s = true → startDiscovery s = (s, [])) ∧
    discoveryRunning (startDiscovery s).1 = true ∧
    startDiscovery (startDiscovery s).1 = ((startDiscovery s).1, []) := by
  have h1 : ∀ t : Private, discoveryRunning t = true → startDiscovery t = (t, []) := by
    intro t ht
    simp only [discoveryRunning] at ht
    simp [startDiscovery, ht]
  have h2 : discoveryRunning (startDiscovery s).1 = true := by
    cases h : s.discoveryRunning <;> simp [startDiscovery, discoveryRunning, h]
  exact ⟨h1 s, h2, h1 _ h2⟩

/-- C9 at a state with a scan running. -/
theorem startDiscovery_idempotent_witness :
    startDiscovery connectedState = (connectedState, []) :=
  (startDiscovery_idempotent connectedState).1 rfl

/-- C10, as stated, fails: `stopDiscovery()` called while no scan is running emits
`discoveryRunningChanged(false)`, although `discoveryRunning()` is false before and after. -/
theorem stopDiscovery_idle_emits :
    discoveryRunning Private.initial = false ∧
      discoveryRunning (stopDiscovery Private.initial).1 = false ∧
      (stopDiscovery Private.initial).2
        = [Effect.emit (Signal.discoveryRunningChanged false) Private.initial,
           Effect.agentStop] :=
  ⟨rfl, rfl, rfl⟩

/-- C10, amended: `startDiscovery()` emits `discoveryRunningChanged` only when
`discoveryRunning()` after the call differs from its value before; `stopDiscovery()` and the
handler of the finished scan emit `discoveryRunningChanged(false)` exactly once on every call,
whatever the value before, and leave `discoveryRunning()` false. -/
theorem discoveryRunningChanged_emissions (s : Private) :
    ((startDiscovery s).2.any Effect.isDiscoveryRunningChanged = true →
      discoveryRunning (startDiscovery s).1 ≠ discoveryRunning s) ∧
    (discoveryRunning (stopDiscovery s).1 = false ∧
      (stopDiscovery s).2
        = [Effect.emit (Signal.discoveryRunningChanged false) (stopDiscovery s).1,
           Effect.agentStop]) ∧
    (discoveryRunning (discoveryFinished s).1 = false ∧
      (discoveryFinished s).2
        = [Effect.emit (Signal.discoveryRunningChanged false) (discoveryFinished s).1]) := by
  refine ⟨?_, ⟨rfl, rfl⟩, ⟨rfl, rfl⟩⟩
  cases h : s.discoveryRunning <;> simp [startDiscovery, discoveryRunning, h]

/-- The amended C10 at the idle state, where `startDiscovery()` does emit. -/
theorem discoveryRunningChanged_emissions_witness :
    discoveryRunning (startDiscovery Private.initial).1 ≠ discoveryRunning Private.initial :=
  (discoveryRunningChanged_emissions Private.initial).1 rfl

/-! ## Theorems: the current command -/

/-- A text without the separator is a single part. -/
theorem split_of_not_mem (sep : Char) (l : List Char) (h : sep ∉ l) : split sep l = [l] := by
  induction l with
  | nil => rfl
  | cons c cs ih =>
    have hc : c ≠ sep := fun e => h (by simp [e])
    have hcs : sep ∉ cs := fun e => h (by simp [e])
    simp [split, hc, ih hcs]

/-- The first part of a text is what stands before the first separator. -/
theorem split_append_sep (sep : Char) (pre rest : List Char) (h : sep ∉ pre) :
    split sep (pre ++ sep :: rest) = pre :: split sep rest := by
  induction pre with
  | nil => simp [split]
  | cons c cs ih =>
    have hc : c ≠ sep := fun e => h (by simp [e])
    have hcs : sep ∉ cs := fun e => h (by simp [e])
    simp [split, hc, ih hcs]

/-- Reading one more digit at the end of a run. -/
theorem parseDigits_append_singleton (l : List Char) (c : Char) (acc : Nat) :
    parseDigits (l ++ [c]) acc
      = (parseDigits l acc).bind (fun v => (digitValue c).map (fun d => v * 10 + d)) := by
  induction l generalizing acc with
  | nil =>
    cases h : digitValue c <;> simp [parseDigits, h]
  | cons x xs ih =>
    cases h : digitValue x with
    | none => simp [parseDigits, h]
    | some d => simp [parseDigits, h, ih]

/-- The character of a decimal digit has that digit as its value. -/
theorem digitValue_digitChar (d : Nat) (h : d < 10) : digitValue (Nat.digitChar d) = some d := by
  interval_cases d <;> decide

/-- The digits that `Nat.toDigitsCore` puts in front of its accumulator are a non-empty run of
decimal digits that reads back as the number. -/
theorem toDigitsCore_spec (fuel : Nat) :
    ∀ n ds, n < fuel → ∃ pre, Nat.toDigitsCore 10 fuel n ds = pre ++ ds ∧
      parseDigits pre 0 = some n ∧ pre ≠ [] ∧ ∀ c ∈ pre, (digitValue c).isSome = true := by
  induction fuel with
  | zero => intro n ds h; omega
  | succ fuel ih =>
    intro n ds h
    have hd : digitValue (Nat.digitChar (n % 10)) = some (n % 10) :=
      digitValue_digitChar _ (Nat.mod_lt _ (by decide))
    by_cases h0 : n / 10 = 0
    · refine ⟨[Nat.digitChar (n % 10)], ?_, ?_, by simp, ?_⟩
      · simp [Nat.toDigitsCore, h0]
      · have hn : n % 10 = n := by omega
        simp only [parseDigits, hd]
        simp [hn]
      · intro c hc
        simp only [List.mem_singleton] at hc
        simp [hc, hd]
    · have hlt : n / 10 < fuel := by omega
      obtain ⟨pre, h1, h2, _, h4⟩ := ih (n / 10) (Nat.digitChar (n % 10) :: ds) hlt
      refine ⟨pre ++ [Nat.digitChar (n % 10)], ?_, ?_, by simp, ?_⟩
      · simp [Nat.toDigitsCore, h0, h1]
      · rw [parseDigits_append_singleton, h2, hd]
        simp only [Option.some_bind, Option.map_some']
        congr 1
        omega
      · intro c hc
        rcases List.mem_append.mp hc with hc | hc
        · exact h4 c hc
        · simp only [List.mem_singleton] at hc
          simp [hc, hd]

/-- The decimal text of a number is a non-empty run of digits that reads back as the number. -/
theorem toDigits_spec (n : Nat) :
    parseDigits (Nat.toDigits 10 n) 0 = some n ∧ Nat.toDigits 10 n ≠ [] ∧
      ∀ c ∈ Nat.toDigits 10 n, (digitValue c).isSome = true := by
  obtain ⟨pre, h1, h2, h3, h4⟩ := toDigitsCore_spec (n + 1) n [] (Nat.lt_succ_self n)
  have h : Nat.toDigits 10 n = pre := by simpa [Nat.toDigits] using h1
  rw [h]
  exact ⟨h2, h3, h4⟩

/-- A digit is no white space, no sign and no colon. -/
theorem digit_is_plain (c : Char) (h : (digitValue c).isSome = true) :
    isSpace c = false ∧ c ≠ '-' ∧ c ≠ '+' ∧ c ≠ ':' := by
  have hr : 48 ≤ c.toNat ∧ c.toNat ≤ 57 := by
    by_contra hn
    simp [digitValue, hn] at h
  refine ⟨?_, ?_, ?_, ?_⟩
  · simp only [isSpace, Bool.or_eq_false_iff, Bool.and_eq_false_iff, decide_eq_false_iff_not]
    omega
  · intro e
    rw [e] at hr
    revert hr
    decide
  · intro e
    rw [e] at hr
    revert hr
    decide
  · intro e
    rw [e] at hr
    revert hr
    decide

/-- Trimming leaves a non-empty text alone when none of its characters is white space. -/
theorem trimmed_of_plain (l : List Char) (h : ∀ c ∈ l, isSpace c = false) : trimmed l = l := by
  have hdrop : ∀ m : List Char, (∀ c ∈ m, isSpace c = false) → m.dropWhile isSpace = m := by
    intro m hm
    cases m with
    | nil => rfl
    | cons x xs => simp [List.dropWhile, hm x (by simp)]
  have hrev : ∀ c ∈ l.reverse, isSpace c = false := fun c hc => h c (List.mem_reverse.mp hc)
  simp [trimmed, hdrop l h, hdrop l.reverse hrev]

/-- The method `toInt` reads the decimal text of a number that fits an `int` as that number. -/
theorem toInt_toDigits (n : Nat) (h : n ≤ 2147483647) : toInt (Nat.toDigits 10 n) = (n : Int) := by
  obtain ⟨h1, h2, h3⟩ := toDigits_spec n
  have hplain : ∀ c ∈ Nat.toDigits 10 n, isSpace c = false := fun c hc => (digit_is_plain c (h3 c hc)).1
  have hhead : ∀ c, (Nat.toDigits 10 n).head? = some c → (digitValue c).isSome = true := by
    intro c hc
    exact h3 c (List.mem_of_mem_head? hc)
  have hminus : ¬ (Nat.toDigits 10 n).head? = some '-' :=
    fun e => (digit_is_plain _ (hhead _ e)).2.1 rfl
  have hplus : ¬ (Nat.toDigits 10 n).head? = some '+' :=
    fun e => (digit_is_plain _ (hhead _ e)).2.2.1 rfl
  have hne : (Nat.toDigits 10 n).isEmpty = false := by
    cases hl : Nat.toDigits 10 n with
    | nil => exact absurd hl h2
    | cons x xs => rfl
  simp only [toInt, trimmed_of_plain _ hplain, hminus, hplus, or_self, if_false, hne, h1,
    decide_False, Bool.false_eq_true]
  have hle : -2147483648 ≤ (n : Int) ∧ (n : Int) ≤ 2147483647 := by omega
  simp [hle]

/-- The rule of `setCommand` for a pause reads the seconds after the colon of `pause:<seconds>`
as the number they are the decimal text of. -/
theorem pause_seconds (n : Nat) (h : n ≤ 2147483647) :
    startsWith ("pause:" ++ toString n) "pause" = true ∧
      toInt (last (split ':' ("pause:" ++ toString n).data)) = (n : Int) := by
  have hdata : ("pause:" ++ toString n).data = "pause".data ++ ':' :: Nat.toDigits 10 n := rfl
  have hcolon : ':' ∉ Nat.toDigits 10 n :=
    fun hc => (digit_is_plain _ ((toDigits_spec n).2.2 _ hc)).2.2.2 rfl
  refine ⟨?_, ?_⟩
  · simp only [startsWith, hdata]
    rfl
  · rw [hdata, split_append_sep _ _ _ (by decide), split_of_not_mem _ _ hcolon]
    exact toInt_toDigits n h

/-- The record `getCommand` builds from a definition is the record of its five fields. -/
theorem getCommand_found (s : Private) (dev : BTDevice) (model : TailCommandModel)
    (info : CommandInfo) (name : String) (hdev : s.connecedDevice = some dev)
    (hmodel : dev.commandModel = some model) (hinfo : model.getCommand name = some info) :
    getCommand s name
      = commandRecord info.category info.command info.duration info.minimumCooldown info.name := by
  simp only [getCommand, hdev, hmodel, hinfo]
  rfl

/-- The current command never holds a key besides the five of a command record: the empty map
of the initial state does not, and `setCommand` adds none. -/
theorem setCommand_keeps_record_keys (s : Private) (record : QVariantMap)
    (h : recordKeysOnly s.command) :
    recordKeysOnly Private.initial.command ∧ recordKeysOnly (setCommand s record).1.command := by
  refine ⟨fun _ _ => rfl, ?_⟩
  intro k hk
  simp only [recordKeys, List.mem_cons, List.mem_singleton, List.not_mem_nil, or_false,
    not_or] at hk
  obtain ⟨k1, k2, k3, k4, k5⟩ := hk
  have hs : s.command k = none := h k (by simp [recordKeys, k1, k2, k3, k4, k5])
  by_cases hp : startsWith (QVariant.toString (record "command")) "pause" = true
  · simp [setCommand, hp, QVariantMap.set, k1, k2, k3, k4, k5, hs]
  · simp only [setCommand, hp, if_false, Bool.false_eq_true]
    cases hd : s.connecedDevice with
    | none => simp [getCommand, hd, QVariantMap.empty]
    | some dev =>
      cases hm : dev.commandModel with
      | none => simp [getCommand, hd, hm, QVariantMap.empty]
      | some model =>
        cases hi : model.getCommand (QVariant.toString (record "command")) with
        | none => simp [getCommand, hd, hm, hi, QVariantMap.empty]
        | some info =>
          simp [getCommand, hd, hm, hi, QVariantMap.set, QVariantMap.empty, k1, k2, k3, k4, k5]

/-- C3, as stated, fails: for the seconds 2147483648, whose decimal text is no `int`,
`toInt` answers 0 and the synthesized duration is 0, not 2147483648000. -/
theorem setCommand_pause_out_of_range :
    toString 2147483648 = "2147483648" ∧
      command (setCommand Private.initial (commandNamed "pause:2147483648")).1 "duration"
        = some (QVariant.int 0) := by
  decide

/-- C3, amended: for every number `n` of seconds with `n * 1000` in the range of a 32-bit
`int`, in every state (whatever the device, the catalog and the fake flag) whose current command
holds no key besides the five record fields, `setCommand` on a record whose `command` field is
`pause:<n>` leaves the current command equal to the record with category empty, command
`pause:<n>`, duration `n * 1000`, minimumCooldown 0 and name `Pause`. -/
theorem setCommand_pause (s : Private) (record : QVariantMap) (n : Nat)
    (hrecord : record "command" = some (QVariant.string ("pause:" ++ toString n)))
    (hrange : n * 1000 ≤ 2147483647) (hkeys : recordKeysOnly s.command) :
    command (setCommand s record).1
      = commandRecord "" ("pause:" ++ toString n) ((n : Int) * 1000) 0 "Pause" := by
  obtain ⟨hstart, hseconds⟩ := pause_seconds n (by omega)
  have hwrap : wrapInt ((n : Int) * 1000) = (n : Int) * 1000 := by
    simp only [wrapInt]
    omega
  funext k
  simp only [command, setCommand, hrecord, QVariant.toString, hstart, if_true, hseconds, hwrap,
    QVariantMap.set, commandRecord]
  by_cases k5 : k = "name"
  · simp [k5]
  by_cases k4 : k = "minimumCooldown"
  · simp [k4]
  by_cases k3 : k = "duration"
  · simp [k3]
  by_cases k2 : k = "command"
  · simp [k2]
  by_cases k1 : k = "category"
  · simp [k1]
  simp only [k1, k2, k3, k4, k5, if_false]
  exact hkeys k (by simp [recordKeys, k1, k2, k3, k4, k5])

/-- The amended C3 at three seconds, in the initial state. -/
theorem setCommand_pause_witness :
    command (setCommand Private.initial (commandNamed ("pause:" ++ toString 3))).1
      = commandRecord "" ("pause:" ++ toString 3) ((3 : Nat) * 1000) 0 "Pause" :=
  setCommand_pause Private.initial (commandNamed ("pause:" ++ toString 3)) 3 rfl (by decide)
    (fun _ _ => rfl)

/-- C4, as stated, fails: the name `pause_all` is not of the form `pause:<seconds>`, yet
`setCommand` synthesizes a definition for it (name `Pause`, duration 0) where `getCommand`
returns the empty record. -/
theorem setCommand_synthesizes_pause_all :
    command (setCommand Private.initial (commandNamed "pause_all")).1 "name"
        = some (QVariant.string "Pause") ∧
      command (setCommand Private.initial (commandNamed "pause_all")).1 "duration"
        = some (QVariant.int 0) ∧
      getCommand Private.initial "pause_all" "name" = none := by
  decide

/-- C4, amended: for every command name that does not start with `pause`, `setCommand` makes
the current command exactly the record `getCommand` returns for that name: the five fields of
the definition when a device is selected, it has a catalog and the catalog holds the name, and
the empty record when no device is selected, the device has no catalog or the catalog does not
hold the name. -/
theorem setCommand_lookup (s : Private) (record : QVariantMap) (name : String)
    (hrecord : record "command" = some (QVariant.string name))
    (hstart : startsWith name "pause" = false) :
    command (setCommand s record).1 = getCommand s name ∧
    (s.connecedDevice = none → getCommand s name = QVariantMap.empty) ∧
    (∀ dev, s.connecedDevice = some dev → dev.commandModel = none →
      getCommand s name = QVariantMap.empty) ∧
    (∀ dev model, s.connecedDevice = some dev → dev.commandModel = some model →
      model.getCommand name = none → getCommand s name = QVariantMap.empty) ∧
    (∀ dev model info, s.connecedDevice = some dev → dev.commandModel = some model →
      model.getCommand name = some info →
      getCommand s name
        = commandRecord info.category info.command info.duration info.minimumCooldown
            info.name) := by
  refine ⟨?_, ?_, ?_, ?_, ?_⟩
  · simp [command, setCommand, hrecord, QVariant.toString, hstart]
  · intro h
    simp [getCommand, h]
  · intro dev h1 h2
    simp [getCommand, h1, h2]
  · intro dev model h1 h2 h3
    simp [getCommand, h1, h2, h3]
  · intro dev model info h1 h2 h3
    exact getCommand_found s dev model info name h1 h2 h3

/-- The amended C4 for the command `TAILS1`: found with the sample device selected, the empty
record in the initial state. -/
theorem setCommand_lookup_witness :
    command (setCommand selectedState (commandNamed "TAILS1")).1
        = commandRecord "relaxed" "TAILS1" 11000 5000 "Slow Wag 1" ∧
      command (setCommand Private.initial (commandNamed "TAILS1")).1 = QVariantMap.empty :=
  ⟨(setCommand_lookup selectedState (commandNamed "TAILS1") "TAILS1" rfl (by decide)).1.trans
      ((setCommand_lookup selectedState (commandNamed "TAILS1") "TAILS1" rfl (by decide)).2.2.2.2
        (sampleDevice false) sampleCatalog
        { name := "Slow Wag 1", command := "TAILS1", category := "relaxed",
          duration := 11000, minimumCooldown := 5000, isRunning := false }
        rfl rfl (by decide)),
   (setCommand_lookup Private.initial (commandNamed "TAILS1") "TAILS1" rfl (by decide)).1.trans
      ((setCommand_lookup Private.initial (commandNamed "TAILS1") "TAILS1" rfl (by decide)).2.1
        rfl)⟩

/-! ## Theorems: setDeviceName -/

/-- The lookup misses an ID that no registered device has. -/
theorem getDevice_unknown (model : BTDeviceModel) (deviceID : String)
    (h : ∀ dev ∈ model.devices, dev.deviceID ≠ deviceID) : model.getDevice deviceID = none := by
  simp only [BTDeviceModel.getDevice, List.find?_eq_none]
  intro dev hdev
  simpa using h dev hdev

/-- For a registered device and an alias store at hand, `setDeviceName` writes the alias under
the address of the device and has the registry update the item. -/
theorem setDeviceName_known (ops : BTDeviceModelOps) (r : Registry) (settings : AppSettings)
    (device : BTDevice) (deviceID deviceName : String)
    (hdevice : r.deviceModel.getDevice deviceID = some device)
    (hsettings : r.appSettings = some settings) :
    ∃ res settings1, setDeviceName ops r deviceID deviceName = some res ∧
      res.1.appSettings = some settings1 ∧
      settings1.deviceNames (ops.address device) = some deviceName ∧
      res.1.deviceModel = ops.updateItem r.deviceModel deviceID ∧
      res.2 = [RegistryCall.setDeviceName (ops.address device) deviceName,
               RegistryCall.updateItem deviceID] := by
  let settings1 := settings.setDeviceName (ops.address device) deviceName
  let after : Registry :=
    { appSettings := some settings1, deviceModel := ops.updateItem r.deviceModel deviceID }
  let calls : List RegistryCall :=
    [RegistryCall.setDeviceName (ops.address device) deviceName, RegistryCall.updateItem deviceID]
  refine ⟨(after, calls), settings1, ?_, rfl, ?_, rfl, rfl⟩
  · simp only [setDeviceName, hdevice, hsettings, after, calls, settings1]
  · simp [settings1, AppSettings.setDeviceName]

/-- The alias of the sample device is written. -/
theorem setDeviceName_known_witness :
    ∃ res settings1,
      setDeviceName sampleModelOps sampleRegistry "C0:FF:EE:00:00:01" "Wagger" = some res ∧
      res.1.appSettings = some settings1 ∧
      settings1.deviceNames "C0:FF:EE:00:00:01" = some "Wagger" ∧
      res.1.deviceModel = sampleRegistry.deviceModel ∧
      res.2 = [RegistryCall.setDeviceName "C0:FF:EE:00:00:01" "Wagger",
               RegistryCall.updateItem "C0:FF:EE:00:00:01"] :=
  setDeviceName_known sampleModelOps sampleRegistry { deviceNames := fun _ => none }
    (sampleDevice false) "C0:FF:EE:00:00:01" "Wagger" (by decide) rfl

/-- C11: for every address that no device of the registry has and every alias,
`setDeviceName(address, alias)` returns having made no call on the alias store and none on the
registry: the alias store and the registry are as they were, and `deviceCount()` is
unchanged. -/
theorem setDeviceName_unknown (ops : BTDeviceModelOps) (r : Registry)
    (deviceID deviceName : String)
    (h : ∀ dev ∈ r.deviceModel.devices, dev.deviceID ≠ deviceID) :
    setDeviceName ops r deviceID deviceName = some (r, []) ∧
    ∀ res, setDeviceName ops r deviceID deviceName = some res →
      res.2 = [] ∧ res.1.deviceModel.devices = r.deviceModel.devices ∧
      (∀ settings, r.appSettings = some settings → res.1.appSettings = some settings) ∧
      deviceCount res.1 = deviceCount r := by
  have hrun : setDeviceName ops r deviceID deviceName = some (r, []) := by
    simp only [setDeviceName, getDevice_unknown r.deviceModel deviceID h]
  refine ⟨hrun, ?_⟩
  intro res hres
  rw [hrun] at hres
  simp only [Option.some.injEq] at hres
  subst hres
  exact ⟨rfl, rfl, fun _ hs => hs, rfl⟩

/-- C11 at the sample registry, for an address that is not the one of its device. -/
theorem setDeviceName_unknown_witness :
    setDeviceName sampleModelOps sampleRegistry "C0:FF:EE:00:00:02" "Wagger"
      = some (sampleRegistry, []) :=
  (setDeviceName_unknown sampleModelOps sampleRegistry "C0:FF:EE:00:00:02" "Wagger"
    (by decide)).1

/-! ## Theorems: the wait loop of sendMessage -/

/-- The wait loop entered with `left + 1` checks to go, on a state with a device selected and
with an event loop whose handlers leave a device selected: it returns after at most `left`
polls, all it adds to the log are these polls, and it returns before the last of them only on
seeing that no call is pending. -/
theorem waitLoop_bounded (processEvents : Nat → Private → Private)
    (hkeep : ∀ i t, t.connecedDevice ≠ none → (processEvents i t).connecedDevice ≠ none) :
    ∀ (left : Nat) (s : Private) (log : List Effect), s.connecedDevice ≠ none →
      ∃ polls s2 dev2,
        waitLoop processEvents (left + 1) s log
          = some (s2, log ++ List.replicate polls Effect.processEvents) ∧
        polls ≤ left ∧ s2.connecedDevice = some dev2 ∧
        (polls < left → dev2.currentCall.isEmpty = true) := by
  intro left
  induction left with
  | zero =>
    intro s log hs
    obtain ⟨dev, hdev⟩ := Option.ne_none_iff_exists'.mp hs
    refine ⟨0, s, dev, ?_, Nat.le_refl 0, hdev, fun h => absurd h (Nat.lt_irrefl 0)⟩
    by_cases hcall : dev.currentCall.isEmpty = true
    · simp [waitLoop, hdev, hcall]
    · simp [waitLoop, hdev, hcall]
  | succ left ih =>
    intro s log hs
    obtain ⟨dev, hdev⟩ := Option.ne_none_iff_exists'.mp hs
    by_cases hcall : dev.currentCall.isEmpty = true
    · refine ⟨0, s, dev, ?_, Nat.zero_le _, hdev, fun _ => hcall⟩
      simp [waitLoop, hdev, hcall]
    · obtain ⟨polls, s2, dev2, hrun, hle, hdev2, hearly⟩ :=
        ih (processEvents (100 - (left + 1 + 1)) s) (log ++ [Effect.processEvents])
          (hkeep _ s hs)
      refine ⟨polls + 1, s2, dev2, ?_, Nat.succ_le_succ hle, hdev2,
        fun h => hearly (Nat.lt_of_succ_lt_succ h)⟩
      rw [waitLoop]
      simp only [hdev, hcall, Bool.false_eq_true, if_false, Nat.succ_ne_zero]
      rw [hrun, List.replicate_succ, List.append_assoc]
      rfl

/-- The fake-mode block of `sendMessage` returns when a device is selected that, in fake mode,
has a catalog: the device stays selected, and the block neither polls nor writes. -/
theorem sendMessageFake_returns (s : Private) (dev : BTDevice) (message : String)
    (hdev : s.connecedDevice = some dev)
    (hmodel : s.fakeTailMode = true → dev.commandModel ≠ none) :
    ∃ s1 log1, sendMessageFake s message = some (s1, log1) ∧ s1.connecedDevice ≠ none ∧
      log1.filter Effect.isProcessEvents = [] ∧ log1.filter Effect.isWrite = [] := by
  by_cases hfake : s.fakeTailMode = true
  · obtain ⟨model, hm⟩ := Option.ne_none_iff_exists'.mp (hmodel hfake)
    cases hinfo : model.getCommand message with
    | none =>
      refine ⟨s, [], ?_, by simp [hdev], rfl, rfl⟩
      rw [sendMessageFake, if_pos hfake]
      simp only [hdev, hm, hinfo]
    | some info =>
      let dev1 : BTDevice := { dev with commandModel := some (model.setRunning message true) }
      let s1 : Private := { s with connecedDevice := some dev1 }
      let timer : Effect := Effect.singleShot info.duration (Deferred.setRunning message false)
      refine ⟨s1, [timer], ?_, ?_, ?_, ?_⟩
      · rw [sendMessageFake, if_pos hfake]
        simp only [hdev, hm, hinfo]
      · simp [s1]
      · simp [timer, Effect.isProcessEvents]
      · simp [timer, Effect.isWrite]
  · refine ⟨s, [], ?_, by simp [hdev], rfl, rfl⟩
    rw [sendMessageFake, if_neg hfake]

/-- The wait loop checks the pending call at most as often as its counter allows, for every
behaviour of the event loop. -/
theorem waitLoopChecks_le (processEvents : Nat → Private → Private) :
    ∀ (left : Nat) (s : Private), waitLoopChecks processEvents left s ≤ left := by
  intro left
  induction left with
  | zero => intro s; simp [waitLoopChecks]
  | succ left ih =>
    intro s
    rw [waitLoopChecks]
    cases s.connecedDevice with
    | none => simp
    | some dev =>
      by_cases hcall : dev.currentCall.isEmpty = true
      · simp [hcall]
      · by_cases hleft : left = 0
        · simp [hcall, hleft]
        · have h := ih (processEvents (100 - (left + 1)) s)
          simp only [hcall, hleft, Bool.false_eq_true, if_false]
          omega

/-- When the wait loop returns, what it has added to the log are its polls, one fewer than its
checks. -/
theorem waitLoop_polls (processEvents : Nat → Private → Private) :
    ∀ (left : Nat) (s : Private) (log : List Effect) (r : Private × List Effect),
      waitLoop processEvents left s log = some r →
      r.2 = log ++ List.replicate (waitLoopChecks processEvents left s - 1)
        Effect.processEvents := by
  intro left
  induction left with
  | zero =>
    intro s log r h
    simp only [waitLoop, Option.some.injEq] at h
    simp [← h, waitLoopChecks]
  | succ left ih =>
    intro s log r h
    rw [waitLoop] at h
    rw [waitLoopChecks]
    cases hdev : s.connecedDevice with
    | none => simp [hdev] at h
    | some dev =>
      simp only [hdev] at h ⊢
      by_cases hcall : dev.currentCall.isEmpty = true
      · simp only [hcall, if_true, Option.some.injEq] at h
        simp [← h, hcall]
      · by_cases hleft : left = 0
        · simp only [hcall, hleft, Bool.false_eq_true, if_false, if_true,
            Option.some.injEq] at h
          simp [← h, hcall, hleft]
        · simp only [hcall, hleft, Bool.false_eq_true, if_false] at h ⊢
          have hrec := ih _ _ r h
          have hpos : 1 ≤ waitLoopChecks processEvents left
              (processEvents (100 - (left + 1)) s) := by
            obtain ⟨k, hk⟩ := Nat.exists_eq_succ_of_ne_zero hleft
            subst hk
            rw [waitLoopChecks]
            cases (processEvents (100 - (k + 1 + 1)) s).connecedDevice with
            | none => simp
            | some dev1 =>
              by_cases h1 : dev1.currentCall.isEmpty = true
              · simp [h1]
              · by_cases h2 : k = 0
                · simp [h1, h2]
                · simp [h1, h2]
          rw [hrec, List.append_assoc]
          congr 1
          have hsplit : 1 + waitLoopChecks processEvents left
              (processEvents (100 - (left + 1)) s) - 1
              = (waitLoopChecks processEvents left
                  (processEvents (100 - (left + 1)) s) - 1) + 1 := by omega
          rw [hsplit, List.replicate_succ]
          rfl

/-- The wait of `sendMessage` where no handler deselects the device. In a state with a device
selected (and, in fake mode, a catalog on it), for every behaviour of the event loop the wait
loop checks the pending call at most 100 times. When the handlers of the event loop leave a
device selected, as the checks need,
`sendMessage` returns after one poll fewer than checks, so at most 99 polls, it leaves the loop
before the 100th check only on seeing no call pending, and the write is issued exactly when the
write characteristic is valid and the service present, a call that never cleared
notwithstanding. -/
theorem sendMessage_wait_is_bounded (processEvents : Nat → Private → Private) (s : Private)
    (dev : BTDevice) (message : String) (hdev : s.connecedDevice = some dev)
    (hmodel : s.fakeTailMode = true → dev.commandModel ≠ none) :
    ∃ s1 log1, sendMessageFake s message = some (s1, log1) ∧
      waitLoopChecks processEvents 100 s1 ≤ 100 ∧
      ((∀ i t, t.connecedDevice ≠ none → (processEvents i t).connecedDevice ≠ none) →
        ∃ r dev2, sendMessage processEvents s message = some r ∧
          r.2.filter Effect.isProcessEvents
            = List.replicate (waitLoopChecks processEvents 100 s1 - 1) Effect.processEvents ∧
          waitLoopChecks processEvents 100 s1 - 1 ≤ 99 ∧
          r.1.connecedDevice = some dev2 ∧
          (waitLoopChecks processEvents 100 s1 < 100 → dev2.currentCall.isEmpty = true) ∧
          r.2.filter Effect.isWrite
            = if dev2.tailCharacteristicValid && dev2.tailService
              then [Effect.writeCharacteristic message] else []) := by
  obtain ⟨s1, log1, hfake, hs1, hpolls1, hwrite1⟩ := sendMessageFake_returns s dev message hdev hmodel
  have hchecks := waitLoopChecks_le processEvents 100 s1
  refine ⟨s1, log1, hfake, hchecks, ?_⟩
  intro hkeep
  obtain ⟨polls, s2, dev2, hrun, hle, hdev2, hearly⟩ :=
    waitLoop_bounded processEvents hkeep 99 s1 log1 hs1
  have hlog := waitLoop_polls processEvents 100 s1 log1 _ hrun
  have hcount : polls = waitLoopChecks processEvents 100 s1 - 1 := by
    have h := congrArg List.length (List.append_cancel_left hlog)
    simpa using h
  have hPE : Effect.isProcessEvents Effect.processEvents = true := rfl
  have hW : ¬ Effect.isWrite Effect.processEvents = true := by simp [Effect.isWrite]
  by_cases hvalid : (dev2.tailCharacteristicValid && dev2.tailService) = true
  · refine ⟨(s2, log1 ++ List.replicate polls Effect.processEvents
        ++ [Effect.writeCharacteristic message]), dev2, ?_, ?_, by omega, hdev2, ?_, ?_⟩
    · simp only [sendMessage, hfake, hrun, sendMessageWrite, hdev2, hvalid, if_true]
    · rw [← hcount]
      simp [List.filter_append, hpolls1, List.filter_replicate_of_pos hPE,
        Effect.isProcessEvents]
    · intro h
      exact hearly (by omega)
    · simp [List.filter_append, hwrite1, List.filter_replicate_of_neg hW, Effect.isWrite,
        hvalid]
  · refine ⟨(s2, log1 ++ List.replicate polls Effect.processEvents), dev2, ?_, ?_, by omega,
      hdev2, ?_, ?_⟩
    · simp only [sendMessage, hfake, hrun, sendMessageWrite, hdev2, hvalid, if_false,
        Bool.false_eq_true]
    · rw [← hcount]
      simp [List.filter_append, hpolls1, List.filter_replicate_of_pos hPE]
    · intro h
      exact hearly (by omega)
    · simp [List.filter_append, hwrite1, List.filter_replicate_of_neg hW, hvalid]

set_option maxRecDepth 100000 in
/-- The sample device with a call pending that no handler ever clears: `sendMessage` polls 99
times and then writes. -/
theorem sendMessage_never_cleared_writes :
    sendMessage idleEvents busyState "TAILS1"
      = some (busyState, List.replicate 99 Effect.processEvents
          ++ [Effect.writeCharacteristic "TAILS1"]) ∧
      waitLoopChecks idleEvents 100 busyState = 100 := by
  constructor
  · rfl
  · rfl

/-- C12: the claim fails on the code for an event loop that delivers a pending
`disconnectDevice()` during the wait. From the state with the sample device connected, its
write characteristic valid, its service present and a call pending, the first poll runs
`disconnectDevice`, which resets `connecedDevice`; the second check of the loop then
dereferences the null pointer, so the loop does not run to its end and no write is issued. -/
theorem sendMessage_wait_device_deselected :
    busyState.connecedDevice = some { sampleDevice true with currentCall := "TAILS1" } ∧
      (sampleDevice true).tailCharacteristicValid = true ∧
      (sampleDevice true).tailService = true ∧
      (disconnectDevice sampleOps busyState).map Prod.fst
        = some (disconnectEvents 0 busyState) ∧
      (disconnectEvents 0 busyState).connecedDevice = none ∧
      sendMessage disconnectEvents busyState "TAILS1" = none ∧
      waitLoopChecks disconnectEvents 100 busyState = 2 :=
  ⟨rfl, rfl, rfl, rfl, rfl, rfl, rfl⟩

/-- The bounded wait at the sample device with a call pending that no handler ever clears. -/
theorem sendMessage_wait_is_bounded_witness :
    ∃ s1 log1, sendMessageFake busyState "TAILS1" = some (s1, log1) ∧
      waitLoopChecks idleEvents 100 s1 ≤ 100 ∧
      ∃ r dev2, sendMessage idleEvents busyState "TAILS1" = some r ∧
        r.2.filter Effect.isProcessEvents
          = List.replicate (waitLoopChecks idleEvents 100 s1 - 1) Effect.processEvents ∧
        waitLoopChecks idleEvents 100 s1 - 1 ≤ 99 ∧
        r.1.connecedDevice = some dev2 ∧
        (waitLoopChecks idleEvents 100 s1 < 100 → dev2.currentCall.isEmpty = true) ∧
        r.2.filter Effect.isWrite
          = if dev2.tailCharacteristicValid && dev2.tailService
            then [Effect.writeCharacteristic "TAILS1"] else [] :=
  match sendMessage_wait_is_bounded idleEvents busyState
      { sampleDevice true with currentCall := "TAILS1" } "TAILS1" rfl (fun h => nomatch h) with
  | ⟨s1, log1, h1, h2, h3⟩ => ⟨s1, log1, h1, h2, h3 (fun _ _ h => h)⟩

end BTConnectionManager
